import Mathlib

/-!
# Match repository (`src/main.go`)

A shallow embedding of the in-memory match repository of `src/main.go`:
the `Match` record, the `MatchRepository` (a Go `map[int]Match` together with
the `nextID` counter) and its operations.

Modelling choices.

* Go's `map[int]Match` is a finite map with no iteration order; it is embedded
  as `Finmap`, whose equality is equality of contents.
* Go's `int` is taken at its 64-bit width.  Values are carried as `Int`, and
  the only arithmetic of the source, the `++` statements, wraps around in
  two's complement (`wrapInt`).
* Every operation of the source takes the repository lock for its whole body,
  so an operation is one atomic step; it is embedded as a function from the
  state before the call to the state after it, paired with the returned value.
* An HTTP request for a route with an id is the router followed by the handler
  closure (`serve`).  The router (`gorilla/mux`) and `strconv.Atoi` are
  libraries outside the repository: the first is modelled by `routerFront`,
  the second is a parameter of the handlers.
-/

namespace MatchRepo

/-- Largest value of a 64-bit Go `int`. -/
def maxInt : Int := 9223372036854775807

/-- Smallest value of a 64-bit Go `int`. -/
def minInt : Int := -9223372036854775808

/-- Two's-complement wrap-around of an integer into the 64-bit signed range. -/
def wrapInt (x : Int) : Int :=
  (x + 9223372036854775808) % 18446744073709551616 - 9223372036854775808

/-- The statement `x++` on a Go `int`. -/
def incr (x : Int) : Int := wrapInt (x + 1)

/-- The `Match` struct. -/
structure Match where
  ID : Int
  HomeTeam : String
  AwayTeam : String
  MatchDate : String
  GoalCount : Int
  YellowCards : Int
  RedCards : Int
  ExtraTime : Bool
deriving DecidableEq, Repr

/-- The zero value `Match{}`. -/
def Match.zero : Match :=
  { ID := 0, HomeTeam := "", AwayTeam := "", MatchDate := "",
    GoalCount := 0, YellowCards := 0, RedCards := 0, ExtraTime := false }

instance : Inhabited Match := ⟨Match.zero⟩

/-- The `MatchRepository` struct, without its lock.  The field `matches` is
spelled `matches_`, the plain word being reserved. -/
structure MatchRepository where
  matches_ : Finmap (fun _ : Int => Match)
  nextID : Int

/-- Embedding of `NewMatchRepository`. -/
def NewMatchRepository : MatchRepository :=
  { matches_ := ∅, nextID := 1 }

/-- Embedding of `GetMatchByID`: the comma-ok map read, which yields the zero
value and `false` for a missing key. -/
def GetMatchByID (mr : MatchRepository) (id : Int) : Match × Bool :=
  match mr.matches_.lookup id with
  | some m => (m, true)
  | none => (Match.zero, false)

/-- Embedding of `CreateMatch`: the state after the call and the returned id. -/
def CreateMatch (mr : MatchRepository) (m : Match) : MatchRepository × Int :=
  let m1 : Match := { m with ID := mr.nextID }
  ({ matches_ := mr.matches_.insert m1.ID m1, nextID := incr mr.nextID }, m1.ID)

/-- Embedding of `UpdateMatch`. -/
def UpdateMatch (mr : MatchRepository) (id : Int) (updatedMatch : Match) :
    MatchRepository × Bool :=
  match mr.matches_.lookup id with
  | none => (mr, false)
  | some _ =>
    let u : Match := { updatedMatch with ID := id }
    ({ mr with matches_ := mr.matches_.insert id u }, true)

/-- Embedding of `DeleteMatch`. -/
def DeleteMatch (mr : MatchRepository) (id : Int) : MatchRepository × Bool :=
  match mr.matches_.lookup id with
  | none => (mr, false)
  | some _ => ({ mr with matches_ := mr.matches_.erase id }, true)

/-- Embedding of `RegisterGoal`. -/
def RegisterGoal (mr : MatchRepository) (id : Int) : MatchRepository × Bool :=
  match mr.matches_.lookup id with
  | none => (mr, false)
  | some m =>
    let m1 : Match := { m with GoalCount := incr m.GoalCount }
    ({ mr with matches_ := mr.matches_.insert id m1 }, true)

/-- Embedding of `RegisterYellowCard`. -/
def RegisterYellowCard (mr : MatchRepository) (id : Int) : MatchRepository × Bool :=
  match mr.matches_.lookup id with
  | none => (mr, false)
  | some m =>
    let m1 : Match := { m with YellowCards := incr m.YellowCards }
    ({ mr with matches_ := mr.matches_.insert id m1 }, true)

/-- Embedding of `RegisterRedCard`. -/
def RegisterRedCard (mr : MatchRepository) (id : Int) : MatchRepository × Bool :=
  match mr.matches_.lookup id with
  | none => (mr, false)
  | some m =>
    let m1 : Match := { m with RedCards := incr m.RedCards }
    ({ mr with matches_ := mr.matches_.insert id m1 }, true)

/-- Embedding of `SetExtraTime`. -/
def SetExtraTime (mr : MatchRepository) (id : Int) : MatchRepository × Bool :=
  match mr.matches_.lookup id with
  | none => (mr, false)
  | some m =>
    let m1 : Match := { m with ExtraTime := true }
    ({ mr with matches_ := mr.matches_.insert id m1 }, true)

/-- Embedding of `GetAllMatches`.  The body only reads `mr.matches`, so the
state after the call is the state before it.  The returned slice is filled by
ranging over the map, whose iteration order Go leaves open; it is embedded as
the multiset of the stored records, one per entry of the map. -/
def GetAllMatches (mr : MatchRepository) : MatchRepository × Multiset Match :=
  (mr, mr.matches_.entries.map (fun e => e.2))

/-- One call of a mutating repository operation, with its arguments. -/
inductive Op where
  | create (m : Match)
  | update (id : Int) (m : Match)
  | delete (id : Int)
  | goal (id : Int)
  | yellow (id : Int)
  | red (id : Int)
  | extra (id : Int)

/-- The state after one call. -/
def step (mr : MatchRepository) : Op → MatchRepository
  | Op.create m => (CreateMatch mr m).1
  | Op.update id m => (UpdateMatch mr id m).1
  | Op.delete id => (DeleteMatch mr id).1
  | Op.goal id => (RegisterGoal mr id).1
  | Op.yellow id => (RegisterYellowCard mr id).1
  | Op.red id => (RegisterRedCard mr id).1
  | Op.extra id => (SetExtraTime mr id).1

/-- The state after a sequence of calls, performed from left to right. -/
def run (mr : MatchRepository) : List Op → MatchRepository
  | [] => mr
  | op :: ops => run (step mr op) ops

/-- The ids returned by the `CreateMatch` calls of a sequence, in call order. -/
def createdIDs (mr : MatchRepository) : List Op → List Int
  | [] => []
  | Op.create m :: ops => (CreateMatch mr m).2 :: createdIDs (CreateMatch mr m).1 ops
  | op :: ops => createdIDs (step mr op) ops

/-- Number of `CreateMatch` calls in a sequence. -/
def countCreates : List Op → Nat
  | [] => 0
  | Op.create _ :: ops => countCreates ops + 1
  | _ :: ops => countCreates ops

/-- The identifier invariant of a map against a bound `hi`: a record sits under
its own `ID`, and every key lies in `[1, hi)`. -/
def KeysOK (f : Finmap (fun _ : Int => Match)) (hi : Int) : Prop :=
  ∀ k m, f.lookup k = some m → m.ID = k ∧ 1 ≤ k ∧ k < hi

/-- Whether a call is a `CreateMatch`. -/
def Op.isCreate : Op → Bool
  | Op.create _ => true
  | _ => false

/-- The values returned by `n` successive `RegisterGoal id` calls, in call
order, and the state after them. -/
def RegisterGoalN (mr : MatchRepository) (id : Int) : Nat → MatchRepository × List Bool
  | 0 => (mr, [])
  | n + 1 =>
    let r := RegisterGoal mr id
    let rest := RegisterGoalN r.1 id n
    (rest.1, r.2 :: rest.2)

/-- The four statistic operations. -/
inductive StatOp where
  | goal
  | yellow
  | red
  | extra

/-- The repository method a statistic operation stands for. -/
def StatOp.call : StatOp → MatchRepository → Int → MatchRepository × Bool
  | StatOp.goal => RegisterGoal
  | StatOp.yellow => RegisterYellowCard
  | StatOp.red => RegisterRedCard
  | StatOp.extra => SetExtraTime

/-- The record a statistic operation writes back over the record it read. -/
def StatOp.upd : StatOp → Match → Match
  | StatOp.goal, m => { m with GoalCount := incr m.GoalCount }
  | StatOp.yellow, m => { m with YellowCards := incr m.YellowCards }
  | StatOp.red, m => { m with RedCards := incr m.RedCards }
  | StatOp.extra, m => { m with ExtraTime := true }

/-- The constant `http.StatusOK`. -/
def StatusOK : Nat := 200

/-- The constant `http.StatusBadRequest`. -/
def StatusBadRequest : Nat := 400

/-- The constant `http.StatusNotFound`. -/
def StatusNotFound : Nat := 404

/-- The routes of `main` that take an id in the path and no body. -/
inductive Endpoint where
  | getMatch
  | deleteMatch
  | goals
  | yellowcards
  | redcards
  | extratime

/-- The bodies of the handler closures that `main` registers for the routes of
`Endpoint`, run on a request the router has dispatched to them with
`vars["id"] = seg`: the state after the request and the response status.
`atoi` stands for `strconv.Atoi`, which is not part of the repository: `none`
is its error result.  A handler that writes a body without an explicit status
answers with `StatusOK`.  What the router does before a handler runs is
`routerFront`; a whole request is `serve`. -/
def handle (atoi : String → Option Int) (mr : MatchRepository) (e : Endpoint)
    (seg : String) : MatchRepository × Nat :=
  match atoi seg with
  | none => (mr, StatusBadRequest)
  | some id =>
    match e with
    | Endpoint.getMatch =>
      let r := GetMatchByID mr id
      if !r.2 then (mr, StatusNotFound) else (mr, StatusOK)
    | Endpoint.deleteMatch =>
      let r := DeleteMatch mr id
      if !r.2 then (r.1, StatusNotFound) else (r.1, StatusOK)
    | Endpoint.goals =>
      let r := RegisterGoal mr id
      if !r.2 then (r.1, StatusNotFound) else (r.1, StatusOK)
    | Endpoint.yellowcards =>
      let r := RegisterYellowCard mr id
      if !r.2 then (r.1, StatusNotFound) else (r.1, StatusOK)
    | Endpoint.redcards =>
      let r := RegisterRedCard mr id
      if !r.2 then (r.1, StatusNotFound) else (r.1, StatusOK)
    | Endpoint.extratime =>
      let r := SetExtraTime mr id
      if !r.2 then (r.1, StatusNotFound) else (r.1, StatusOK)

/-- The constant `http.StatusMovedPermanently`. -/
def StatusMovedPermanently : Nat := 301

/-- One segment of a request path, after percent-decoding: a string without
a slash. -/
structure PathSegment where
  val : String
  noSlash : '/' ∉ val.toList

/-- Whether the route pattern goes on after `{id}`: the four `PATCH` routes
(`/api/matches/{id}/goals` and so on) do, `/api/matches/{id}` does not. -/
def Endpoint.hasTail : Endpoint → Bool
  | Endpoint.getMatch => false
  | Endpoint.deleteMatch => false
  | _ => true

/-- What the router `mux.NewRouter()` does with a request for the route of `e`
whose id segment is `seg`, before any handler runs: `some status` when the
router answers itself, `none` when it dispatches to the handler with
`vars["id"] = seg`.  The router is the library `gorilla/mux`, outside the
repository; this follows its `Router.ServeHTTP`:

* the path is cleaned first, and a path that cleaning changes is answered with
  `StatusMovedPermanently`: a segment `.` or `..` is removed by cleaning, and
  so is an empty segment that is followed by more of the path;
* `{id}` matches one or more characters other than a slash, so the path
  `/api/matches/`, with an empty last segment, matches no route and is
  answered with `StatusNotFound`;
* every other segment is left alone by cleaning and matches `{id}`. -/
def routerFront (e : Endpoint) (seg : PathSegment) : Option Nat :=
  if seg.val = "." ∨ seg.val = ".." then some StatusMovedPermanently
  else if seg.val = "" then
    if e.hasTail then some StatusMovedPermanently else some StatusNotFound
  else none

/-- A whole request for the route of `e` with id segment `seg`: the router
first, then the handler if the router dispatches to it.  The state after the
request and the response status. -/
def serve (atoi : String → Option Int) (mr : MatchRepository) (e : Endpoint)
    (seg : PathSegment) : MatchRepository × Nat :=
  match routerFront e seg with
  | some status => (mr, status)
  | none => handle atoi mr e seg.val

/-- The value of a string of decimal digits, continuing from `acc`; `none` if
a character is not a digit. -/
def parseDigits : List Char → Nat → Option Nat
  | [], acc => some acc
  | c :: cs, acc => if c.isDigit then parseDigits cs (acc * 10 + (c.toNat - 48)) else none

/-- A model of `strconv.Atoi` on a 64-bit target, used to instantiate the
parameter `atoi` at concrete segments: an optional sign followed by at least
one decimal digit, with a value that fits a 64-bit `int`; `none` stands for
an error. -/
def Atoi (s : String) : Option Int :=
  match s.toList with
  | [] => none
  | '-' :: cs =>
    if cs = [] then none else
    match parseDigits cs 0 with
    | some n => if n ≤ 9223372036854775808 then some (-(n : Int)) else none
    | none => none
  | '+' :: cs =>
    if cs = [] then none else
    match parseDigits cs 0 with
    | some n => if n < 9223372036854775808 then some (n : Int) else none
    | none => none
  | cs =>
    match parseDigits cs 0 with
    | some n => if n < 9223372036854775808 then some (n : Int) else none
    | none => none

/-- Whether the three counters of a record lie between 0 and `B`. -/
def Match.countersWithin (m : Match) (B : Int) : Bool :=
  decide (0 ≤ m.GoalCount ∧ m.GoalCount ≤ B ∧ 0 ≤ m.YellowCards ∧ m.YellowCards ≤ B ∧
    0 ≤ m.RedCards ∧ m.RedCards ≤ B)

/-- Whether the payload of a call, if it carries one, has its counters
between 0 and `B`. -/
def Op.payloadWithin (B : Int) : Op → Bool
  | Op.create m => m.countersWithin B
  | Op.update _ m => m.countersWithin B
  | _ => true

/-- Whether a call is one of the three counter operations `RegisterGoal`,
`RegisterYellowCard` and `RegisterRedCard`. -/
def Op.isRegister : Op → Bool
  | Op.goal _ => true
  | Op.yellow _ => true
  | Op.red _ => true
  | _ => false

/-- Number of calls of the three counter operations in a sequence. -/
def countRegisters : List Op → Nat
  | [] => 0
  | op :: ops => countRegisters ops + (if op.isRegister then 1 else 0)

/-- Every stored record has its three counters between 0 and `c`. -/
def CountersIn (f : Finmap (fun _ : Int => Match)) (c : Int) : Prop :=
  ∀ k m, f.lookup k = some m → m.countersWithin c = true

/-! ## Concrete repositories used as test inputs -/

/-- The payload of the example of the specification: only the two teams and the
date are set. -/
def samplePayload : Match :=
  { Match.zero with HomeTeam := "A", AwayTeam := "B", MatchDate := "2024-01-01" }

/-- A fresh repository after one `CreateMatch` of `samplePayload`. -/
def oneMatchRepo : MatchRepository := (CreateMatch NewMatchRepository samplePayload).1

/-- An empty repository whose next-id counter stands at the largest `int`. -/
def fullCounterRepo : MatchRepository := { matches_ := ∅, nextID := maxInt }

/-- A fresh repository after one `CreateMatch` whose payload carries the
largest `int` as goal count. -/
def maxGoalsRepo : MatchRepository :=
  (CreateMatch NewMatchRepository { samplePayload with GoalCount := maxInt }).1

/-- A fresh repository after one `CreateMatch` whose payload carries the
largest `int` as number of yellow cards. -/
def maxYellowRepo : MatchRepository :=
  (CreateMatch NewMatchRepository { samplePayload with YellowCards := maxInt }).1

/-- The empty path segment, as in a request for `/api/matches/`. -/
def emptySegment : PathSegment := ⟨"", by decide⟩

/-- The path segment `1`. -/
def segmentOne : PathSegment := ⟨"1", by decide⟩

/-- The path segment `7`. -/
def segmentSeven : PathSegment := ⟨"7", by decide⟩

/-- The path segment `abc`. -/
def segmentAbc : PathSegment := ⟨"abc", by decide⟩

/-- The repository `oneMatchRepo` after `SetExtraTime 1`. -/
def extraTimeRepo : MatchRepository := (SetExtraTime oneMatchRepo 1).1

/-- The sequence of `2^63 - 2` creates of `samplePayload`; it leaves the
counter of a fresh repository at the largest `int`. -/
@[irreducible]
def longTrace : List Op :=
  List.replicate 9223372036854775806 (Op.create samplePayload)

/-! ## Basic facts -/

theorem MatchRepository.ext_lookup {a b : MatchRepository}
    (h1 : ∀ k, a.matches_.lookup k = b.matches_.lookup k) (h2 : a.nextID = b.nextID) :
    a = b := by
  cases a; cases b
  simp only [MatchRepository.mk.injEq]
  exact ⟨Finmap.ext_lookup h1, h2⟩

theorem incr_eq_of_lt {x : Int} (h1 : minInt ≤ x) (h2 : x < maxInt) : incr x = x + 1 := by
  unfold incr wrapInt
  unfold minInt at h1
  unfold maxInt at h2
  omega

theorem incr_maxInt : incr maxInt = minInt := by
  decide

theorem KeysOK_empty (hi : Int) : KeysOK ∅ hi := by
  intro k m h
  simp [Finmap.lookup_empty] at h

theorem KeysOK_mono {f : Finmap (fun _ : Int => Match)} {hi hi2 : Int}
    (h : KeysOK f hi) (hle : hi ≤ hi2) : KeysOK f hi2 := by
  intro k m hk
  obtain ⟨h1, h2, h3⟩ := h k m hk
  exact ⟨h1, h2, lt_of_lt_of_le h3 hle⟩

theorem KeysOK_insert {f : Finmap (fun _ : Int => Match)} {hi : Int}
    (h : KeysOK f hi) (id : Int) (m : Match) (hid : m.ID = id) (h1 : 1 ≤ id)
    (h2 : id < hi) : KeysOK (f.insert id m) hi := by
  intro k m2 hk
  by_cases hkid : k = id
  · subst hkid
    rw [Finmap.lookup_insert] at hk
    cases hk
    exact ⟨hid, h1, h2⟩
  · rw [Finmap.lookup_insert_of_ne _ hkid] at hk
    exact h k m2 hk

theorem KeysOK_erase {f : Finmap (fun _ : Int => Match)} {hi : Int}
    (h : KeysOK f hi) (id : Int) : KeysOK (f.erase id) hi := by
  intro k m2 hk
  by_cases hkid : k = id
  · subst hkid
    rw [Finmap.lookup_erase] at hk
    cases hk
  · rw [Finmap.lookup_erase_ne hkid] at hk
    exact h k m2 hk

/-- A call other than `CreateMatch` leaves the counter alone. -/
theorem step_nextID_of_not_create (mr : MatchRepository) (op : Op)
    (hop : op.isCreate = false) : (step mr op).nextID = mr.nextID := by
  cases op with
  | create m => simp [Op.isCreate] at hop
  | update id m => simp only [step, UpdateMatch]; split <;> rfl
  | delete id => simp only [step, DeleteMatch]; split <;> rfl
  | goal id => simp only [step, RegisterGoal]; split <;> rfl
  | yellow id => simp only [step, RegisterYellowCard]; split <;> rfl
  | red id => simp only [step, RegisterRedCard]; split <;> rfl
  | extra id => simp only [step, SetExtraTime]; split <;> rfl

/-- A call other than `CreateMatch` keeps the identifier invariant, for any
bound. -/
theorem step_KeysOK_of_not_create (mr : MatchRepository) (op : Op) (hi : Int)
    (hop : op.isCreate = false) (h : KeysOK mr.matches_ hi) :
    KeysOK (step mr op).matches_ hi := by
  cases op with
  | create m => simp [Op.isCreate] at hop
  | update id m =>
    simp only [step, UpdateMatch]
    split
    · exact h
    · next m0 hl =>
      obtain ⟨_, h1, h2⟩ := h id m0 hl
      exact KeysOK_insert h id _ rfl h1 h2
  | delete id =>
    simp only [step, DeleteMatch]
    split
    · exact h
    · exact KeysOK_erase h id
  | goal id =>
    simp only [step, RegisterGoal]
    split
    · exact h
    · next m0 hl =>
      obtain ⟨h0, h1, h2⟩ := h id m0 hl
      exact KeysOK_insert h id _ h0 h1 h2
  | yellow id =>
    simp only [step, RegisterYellowCard]
    split
    · exact h
    · next m0 hl =>
      obtain ⟨h0, h1, h2⟩ := h id m0 hl
      exact KeysOK_insert h id _ h0 h1 h2
  | red id =>
    simp only [step, RegisterRedCard]
    split
    · exact h
    · next m0 hl =>
      obtain ⟨h0, h1, h2⟩ := h id m0 hl
      exact KeysOK_insert h id _ h0 h1 h2
  | extra id =>
    simp only [step, SetExtraTime]
    split
    · exact h
    · next m0 hl =>
      obtain ⟨h0, h1, h2⟩ := h id m0 hl
      exact KeysOK_insert h id _ h0 h1 h2

/-- `CreateMatch` below the largest `int` keeps the identifier invariant
against the raised counter. -/
theorem CreateMatch_KeysOK (mr : MatchRepository) (m : Match)
    (h1 : 1 ≤ mr.nextID) (h2 : mr.nextID < maxInt) (h : KeysOK mr.matches_ mr.nextID) :
    (CreateMatch mr m).1.nextID = mr.nextID + 1 ∧
    KeysOK (CreateMatch mr m).1.matches_ (mr.nextID + 1) := by
  have hlo : minInt ≤ mr.nextID := le_trans (by decide) h1
  refine ⟨by simp [CreateMatch, incr_eq_of_lt hlo h2], ?_⟩
  simp only [CreateMatch]
  exact KeysOK_insert (KeysOK_mono h (by omega)) _ _ rfl h1 (by omega)

theorem countCreates_cons (op : Op) (ops : List Op) :
    countCreates (op :: ops) = countCreates ops + (if op.isCreate then 1 else 0) := by
  cases op <;> simp [countCreates, Op.isCreate]

theorem run_append (mr : MatchRepository) (xs ys : List Op) :
    run mr (xs ++ ys) = run (run mr xs) ys := by
  induction xs generalizing mr with
  | nil => rfl
  | cons x xs ih => simp [run, ih]

/-- The state invariant along a run that does not exhaust the counter: the
counter has advanced by the number of creates and the identifier invariant
holds against it. -/
theorem run_invariant (ops : List Op) : ∀ (mr : MatchRepository),
    1 ≤ mr.nextID → mr.nextID + countCreates ops ≤ maxInt →
    KeysOK mr.matches_ mr.nextID →
    (run mr ops).nextID = mr.nextID + countCreates ops ∧
    KeysOK (run mr ops).matches_ (run mr ops).nextID := by
  induction ops with
  | nil =>
    intro mr _ _ h
    simp [run, countCreates, h]
  | cons op ops ih =>
    intro mr h1 h2 h
    rw [countCreates_cons] at h2 ⊢
    simp only [run]
    cases hc : op.isCreate with
    | false =>
      simp only [hc, Bool.false_eq_true, if_false, add_zero] at h2 ⊢
      have hn := step_nextID_of_not_create mr op hc
      have hk := step_KeysOK_of_not_create mr op mr.nextID hc h
      have := ih (step mr op) (by omega) (by omega) (by rw [hn]; exact hk)
      rw [hn] at this
      exact this
    | true =>
      simp only [hc, if_true] at h2 ⊢
      cases op with
      | create m =>
        have hlt : mr.nextID < maxInt := by push_cast at h2; omega
        obtain ⟨hn, hk⟩ := CreateMatch_KeysOK mr m h1 hlt h
        have := ih (step mr (Op.create m)) (by simp only [step]; omega)
          (by simp only [step]; push_cast at h2; omega) (by simp only [step]; rw [hn]; exact hk)
        simp only [step] at this
        rw [hn] at this
        simp only [step]
        refine ⟨?_, this.2⟩
        rw [this.1]; push_cast; omega
      | _ => simp [Op.isCreate] at hc

theorem createdIDs_append (xs ys : List Op) : ∀ (mr : MatchRepository),
    createdIDs mr (xs ++ ys) = createdIDs mr xs ++ createdIDs (run mr xs) ys := by
  induction xs with
  | nil => intro mr; rfl
  | cons x xs ih =>
    intro mr
    cases x <;> simp [createdIDs, run, step, ih]

theorem createdIDs_of_no_create (ops : List Op) : ∀ (mr : MatchRepository),
    countCreates ops = 0 → createdIDs mr ops = [] := by
  induction ops with
  | nil => intro mr _; rfl
  | cons op ops ih =>
    intro mr h
    cases op <;> simp_all [createdIDs, countCreates]

/-- Along a run whose creates the counter can serve without passing the
largest `int`, the returned ids increase strictly and start at the counter. -/
theorem createdIDs_sorted (ops : List Op) : ∀ (mr : MatchRepository),
    minInt ≤ mr.nextID → mr.nextID + countCreates ops ≤ maxInt + 1 →
    (createdIDs mr ops).Pairwise (fun a b => a < b) ∧
    ∀ x ∈ createdIDs mr ops, mr.nextID ≤ x := by
  induction ops with
  | nil =>
    intro mr _ _
    simp [createdIDs]
  | cons op ops ih =>
    intro mr h1 h2
    rw [countCreates_cons] at h2
    cases hc : op.isCreate with
    | false =>
      simp only [hc, Bool.false_eq_true, if_false, add_zero] at h2
      have hn := step_nextID_of_not_create mr op hc
      have := ih (step mr op) (by omega) (by omega)
      rw [hn] at this
      cases op <;> first | (simp [Op.isCreate] at hc; done) | simpa [createdIDs] using this
    | true =>
      cases op with
      | create m =>
        simp only [hc, if_true] at h2
        simp only [createdIDs, List.pairwise_cons, List.mem_cons, forall_eq_or_imp]
        by_cases h0 : countCreates ops = 0
        · rw [createdIDs_of_no_create ops _ h0]
          simp [CreateMatch]
        · have hlt : mr.nextID < maxInt := by push_cast at h2; omega
          have hn : (CreateMatch mr m).1.nextID = mr.nextID + 1 := by
            simp [CreateMatch, incr_eq_of_lt h1 hlt]
          have := ih (CreateMatch mr m).1 (by omega) (by push_cast at h2; omega)
          rw [hn] at this
          refine ⟨⟨?_, this.1⟩, ?_, ?_⟩
          · intro x hx
            have := this.2 x hx
            simp only [CreateMatch]
            omega
          · simp [CreateMatch]
          · intro x hx
            have := this.2 x hx
            omega
      | _ => simp [Op.isCreate] at hc

theorem run_singleton (s : MatchRepository) (op : Op) : run s [op] = step s op := rfl

/-- What `CreateMatch` does when the counter stands at the largest `int`: the
record goes under `2^63 - 1` and the counter wraps to `-2^63`. -/
theorem step_create_at_maxInt (s : MatchRepository) (m : Match) (h : s.nextID = maxInt) :
    (GetMatchByID (step s (Op.create m)) 9223372036854775807).2 = true ∧
    (step s (Op.create m)).nextID = -9223372036854775808 := by
  constructor
  · simp only [step, CreateMatch, GetMatchByID, h]
    have : (9223372036854775807 : Int) = maxInt := rfl
    rw [this, Finmap.lookup_insert]
  · simp only [step, CreateMatch, h]
    decide

/-- The ids returned by two creates when the counter stands at the largest
`int`. -/
theorem createdIDs_two_at_maxInt (s : MatchRepository) (m1 m2 : Match)
    (h : s.nextID = maxInt) :
    createdIDs s [Op.create m1, Op.create m2]
      = [9223372036854775807, -9223372036854775808] := by
  simp only [createdIDs, CreateMatch, h]
  decide

theorem countCreates_replicate (n : Nat) (m : Match) :
    countCreates (List.replicate n (Op.create m)) = n := by
  induction n with
  | zero => rfl
  | succ n ih => simp [List.replicate_succ, countCreates, ih]

/-! ## Facts about the test inputs -/

theorem lookup_oneMatchRepo :
    oneMatchRepo.matches_.lookup 1 = some { samplePayload with ID := 1 } := by
  simp [oneMatchRepo, CreateMatch, NewMatchRepository]

/-! ## CreateMatch -/

/-- C2 (as amended): for every repository state whose next-id counter is a Go
`int` below the largest one and every payload `m`, `CreateMatch` returns the
current counter, stores under it `m` with its `ID` overwritten by that id,
raises the counter by exactly one and leaves every other key as it was. -/
theorem CreateMatch_spec (mr : MatchRepository) (m : Match)
    (hlo : minInt ≤ mr.nextID) (hhi : mr.nextID < maxInt) :
    (CreateMatch mr m).2 = mr.nextID ∧
    (CreateMatch mr m).1.matches_.lookup (CreateMatch mr m).2
      = some { m with ID := mr.nextID } ∧
    (CreateMatch mr m).1.nextID = mr.nextID + 1 ∧
    ∀ k, k ≠ (CreateMatch mr m).2 →
      (CreateMatch mr m).1.matches_.lookup k = mr.matches_.lookup k := by
  refine ⟨rfl, ?_, ?_, ?_⟩
  · simp [CreateMatch]
  · simp [CreateMatch, incr_eq_of_lt hlo hhi]
  · intro k hk
    simp only [CreateMatch] at hk ⊢
    exact Finmap.lookup_insert_of_ne _ hk

/-- Witness of `CreateMatch_spec` on the fresh repository. -/
theorem CreateMatch_spec_witness :
    (CreateMatch NewMatchRepository samplePayload).2 = 1 ∧
    (CreateMatch NewMatchRepository samplePayload).1.nextID = 2 := by
  have h := CreateMatch_spec NewMatchRepository samplePayload (by decide) (by decide)
  exact ⟨h.1, h.2.2.1⟩

/-- C2 fails as stated: with the counter at the largest `int`, `CreateMatch`
leaves it at the smallest `int`, not one higher. -/
theorem CreateMatch_counter_wraps :
    (CreateMatch fullCounterRepo samplePayload).2 = 9223372036854775807 ∧
    (CreateMatch fullCounterRepo samplePayload).1.nextID = -9223372036854775808 ∧
    (CreateMatch fullCounterRepo samplePayload).1.nextID ≠ fullCounterRepo.nextID + 1 := by
  refine ⟨rfl, ?_, ?_⟩ <;> simp [CreateMatch, fullCounterRepo, incr, wrapInt, maxInt]

/-! ## DeleteMatch -/

/-- C4: `DeleteMatch` returns whether the id was stored; afterwards the id is
not found; other keys and the counter are untouched; on an absent id (and so
on a second delete) it returns `false` and the state is unchanged. -/
theorem DeleteMatch_spec (mr : MatchRepository) (id : Int) :
    (DeleteMatch mr id).2 = (GetMatchByID mr id).2 ∧
    (GetMatchByID (DeleteMatch mr id).1 id).2 = false ∧
    (∀ k, k ≠ id → (DeleteMatch mr id).1.matches_.lookup k = mr.matches_.lookup k) ∧
    (DeleteMatch mr id).1.nextID = mr.nextID ∧
    ((GetMatchByID mr id).2 = false → DeleteMatch mr id = (mr, false)) ∧
    DeleteMatch (DeleteMatch mr id).1 id = ((DeleteMatch mr id).1, false) := by
  unfold DeleteMatch GetMatchByID
  cases h : mr.matches_.lookup id with
  | none => simp [h]
  | some m =>
    simp only [Finmap.lookup_erase, and_self, true_and]
    refine ⟨?_, ?_⟩
    · intro k hk
      exact Finmap.lookup_erase_ne hk
    · exact ⟨(fun hf => Bool.noConfusion hf), trivial⟩

/-! ## UpdateMatch -/

/-- C6: on an id that is not stored, `UpdateMatch` returns `false` and the
repository (map and counter) is exactly the one before; nothing is inserted. -/
theorem UpdateMatch_absent (mr : MatchRepository) (id : Int) (p : Match)
    (h : (GetMatchByID mr id).2 = false) :
    UpdateMatch mr id p = (mr, false) ∧
    (GetMatchByID (UpdateMatch mr id p).1 id).2 = false := by
  unfold GetMatchByID at h
  unfold UpdateMatch GetMatchByID
  cases hl : mr.matches_.lookup id with
  | none => simp [hl]
  | some m => simp [hl] at h

/-- Witness of `UpdateMatch_absent`: updating id 7 of a repository holding only
id 1. -/
theorem UpdateMatch_absent_witness :
    UpdateMatch oneMatchRepo 7 samplePayload = (oneMatchRepo, false) :=
  (UpdateMatch_absent oneMatchRepo 7 samplePayload
    (by simp [GetMatchByID, oneMatchRepo, CreateMatch, NewMatchRepository])).1

/-- C7: on a stored id, `UpdateMatch` returns `true`; the record then read
back is the payload with its `ID` set to the id, so every other field comes
from the payload; other keys and the counter are untouched. -/
theorem UpdateMatch_present (mr : MatchRepository) (id : Int) (p : Match)
    (h : (GetMatchByID mr id).2 = true) :
    (UpdateMatch mr id p).2 = true ∧
    GetMatchByID (UpdateMatch mr id p).1 id = ({ p with ID := id }, true) ∧
    (∀ k, k ≠ id → (UpdateMatch mr id p).1.matches_.lookup k = mr.matches_.lookup k) ∧
    (UpdateMatch mr id p).1.nextID = mr.nextID := by
  unfold GetMatchByID at h
  unfold UpdateMatch GetMatchByID
  cases hl : mr.matches_.lookup id with
  | none => simp [hl] at h
  | some m =>
    simp only [Finmap.lookup_insert, and_self, true_and, and_true]
    intro k hk
    exact Finmap.lookup_insert_of_ne _ hk

/-- Witness of `UpdateMatch_present`: a zero payload written over id 1 leaves
its counters at zero and its id at 1. -/
theorem UpdateMatch_present_witness :
    GetMatchByID (UpdateMatch oneMatchRepo 1 Match.zero).1 1
      = ({ Match.zero with ID := 1 }, true) :=
  (UpdateMatch_present oneMatchRepo 1 Match.zero
    (by simp [GetMatchByID, lookup_oneMatchRepo])).2.1

/-! ## SetExtraTime -/

/-- C8: `SetExtraTime` is idempotent: a second call gives the same state and
the same returned value as the first; on a stored id it returns `true` and
the record is the old one with `ExtraTime` set; on an absent id it returns
`false` and nothing changes. -/
theorem SetExtraTime_idempotent (mr : MatchRepository) (id : Int) :
    SetExtraTime (SetExtraTime mr id).1 id = SetExtraTime mr id ∧
    (∀ m, mr.matches_.lookup id = some m →
      (SetExtraTime mr id).2 = true ∧
      (SetExtraTime mr id).1.matches_.lookup id = some { m with ExtraTime := true } ∧
      (SetExtraTime (SetExtraTime mr id).1 id).1.matches_.lookup id
        = some { m with ExtraTime := true }) ∧
    (mr.matches_.lookup id = none → SetExtraTime mr id = (mr, false)) := by
  unfold SetExtraTime
  cases hl : mr.matches_.lookup id with
  | none => simp [hl]
  | some m => simp [Finmap.lookup_insert, Finmap.insert_insert]

/-! ## The identifier invariant -/

theorem countCreates_longTrace : countCreates longTrace = 9223372036854775806 := by
  unfold longTrace
  exact countCreates_replicate _ _

theorem run_longTrace_nextID : (run NewMatchRepository longTrace).nextID = maxInt := by
  have h := (run_invariant longTrace NewMatchRepository (by decide)
    (by rw [countCreates_longTrace]; decide) (KeysOK_empty _)).1
  rw [h, countCreates_longTrace]
  decide

/-- C10 (as amended): in every repository reached from `NewMatchRepository` by
a sequence of calls with fewer than `2^63 - 1` creates, a stored record sits
under its own `ID`, every stored key lies in `[1, nextID)`, the key the next
`CreateMatch` will use is free, and no call changes the `ID` of a record that
stays stored. -/
theorem reachable_id_invariant (ops : List Op) (hb : (countCreates ops : Int) < maxInt) :
    (∀ k m, (run NewMatchRepository ops).matches_.lookup k = some m →
      m.ID = k ∧ 1 ≤ k ∧ k < (run NewMatchRepository ops).nextID) ∧
    (run NewMatchRepository ops).matches_.lookup (run NewMatchRepository ops).nextID = none ∧
    (∀ op k m m2, (run NewMatchRepository ops).matches_.lookup k = some m →
      (step (run NewMatchRepository ops) op).matches_.lookup k = some m2 → m2.ID = m.ID) := by
  obtain ⟨hn, hk⟩ := run_invariant ops NewMatchRepository (by decide)
    (by simp only [NewMatchRepository]; omega) (KeysOK_empty _)
  have hfree : (run NewMatchRepository ops).matches_.lookup
      (run NewMatchRepository ops).nextID = none := by
    cases hl : (run NewMatchRepository ops).matches_.lookup (run NewMatchRepository ops).nextID with
    | none => rfl
    | some m => exact absurd (hk _ m hl).2.2 (lt_irrefl _)
  refine ⟨hk, hfree, ?_⟩
  intro op k m m2 h1 h2
  rw [(hk k m h1).1]
  cases hc : op.isCreate with
  | false => exact (step_KeysOK_of_not_create _ op _ hc hk k m2 h2).1
  | true =>
    cases op with
    | create p =>
      have hne : k ≠ (run NewMatchRepository ops).nextID := ne_of_lt (hk k m h1).2.2
      simp only [step, CreateMatch] at h2
      rw [Finmap.lookup_insert_of_ne _ hne] at h2
      exact (hk k m2 h2).1
    | _ => simp [Op.isCreate] at hc

/-- Witness of `reachable_id_invariant`: after one create, a delete of a
missing id and a goal, id 1 is stored under key 1 below the counter 2. -/
theorem reachable_id_invariant_witness :
    (run NewMatchRepository [Op.create samplePayload, Op.delete 5, Op.goal 1]).nextID = 2 ∧
    ∀ k m, (run NewMatchRepository
        [Op.create samplePayload, Op.delete 5, Op.goal 1]).matches_.lookup k = some m →
      m.ID = k ∧ 1 ≤ k ∧
        k < (run NewMatchRepository [Op.create samplePayload, Op.delete 5, Op.goal 1]).nextID :=
  ⟨(run_invariant _ NewMatchRepository (by decide) (by decide) (KeysOK_empty _)).1,
   (reachable_id_invariant [Op.create samplePayload, Op.delete 5, Op.goal 1] (by decide)).1⟩

/-- C10 fails as stated: after `2^63 - 1` creates the id `2^63 - 1` is stored
while the counter has wrapped to `-2^63`, so a stored id is not below it. -/
theorem id_below_counter_fails :
    (GetMatchByID (run NewMatchRepository (longTrace ++ [Op.create samplePayload]))
      9223372036854775807).2 = true ∧
    (run NewMatchRepository (longTrace ++ [Op.create samplePayload])).nextID
      = -9223372036854775808 ∧
    ¬ (9223372036854775807 <
      (run NewMatchRepository (longTrace ++ [Op.create samplePayload])).nextID) := by
  rw [run_append, run_singleton]
  obtain ⟨h1, h2⟩ := step_create_at_maxInt _ samplePayload run_longTrace_nextID
  refine ⟨h1, h2, ?_⟩
  rw [h2]
  decide

/-! ## Ids handed out by CreateMatch -/

/-- C1 (as amended): for every sequence of calls with at most `2^63 - 1`
creates, applied to a fresh repository, the ids returned by the creates are
strictly increasing in call order, hence pairwise distinct. -/
theorem createdIDs_strictly_increasing (ops : List Op)
    (hb : (countCreates ops : Int) ≤ maxInt) :
    (createdIDs NewMatchRepository ops).Pairwise (fun a b => a < b) ∧
    (createdIDs NewMatchRepository ops).Nodup := by
  have h := (createdIDs_sorted ops NewMatchRepository (by decide)
    (by simp only [NewMatchRepository]; omega)).1
  exact ⟨h, h.imp (fun hab => ne_of_lt hab)⟩

/-- Witness of `createdIDs_strictly_increasing`: two creates around a delete
of the first id return 1 and then 2. -/
theorem createdIDs_strictly_increasing_witness :
    createdIDs NewMatchRepository
      [Op.create samplePayload, Op.delete 1, Op.create samplePayload] = [1, 2] ∧
    (createdIDs NewMatchRepository
      [Op.create samplePayload, Op.delete 1, Op.create samplePayload]).Pairwise
        (fun a b => a < b) :=
  ⟨by decide,
   (createdIDs_strictly_increasing
      [Op.create samplePayload, Op.delete 1, Op.create samplePayload] (by decide)).1⟩

/-- C1 fails as stated: in a sequence of `2^63` creates the last two return
`2^63 - 1` and then `-2^63`, so the returned ids are not increasing. -/
theorem createdIDs_not_increasing_after_wrap :
    createdIDs NewMatchRepository
        (longTrace ++ [Op.create samplePayload, Op.create samplePayload])
      = createdIDs NewMatchRepository longTrace
          ++ [9223372036854775807, -9223372036854775808] ∧
    ¬ (createdIDs NewMatchRepository
        (longTrace ++ [Op.create samplePayload, Op.create samplePayload])).Pairwise
          (fun a b => a < b) := by
  have h : createdIDs NewMatchRepository
        (longTrace ++ [Op.create samplePayload, Op.create samplePayload])
      = createdIDs NewMatchRepository longTrace
          ++ [9223372036854775807, -9223372036854775808] := by
    rw [createdIDs_append, createdIDs_two_at_maxInt _ _ _ run_longTrace_nextID]
  refine ⟨h, ?_⟩
  rw [h, List.pairwise_append]
  intro hp
  have := hp.2.1
  simp at this

/-- C3 (as amended): in every repository reached from `NewMatchRepository` by
a sequence of calls with fewer than `2^63 - 1` creates, creating a match whose
payload sets only the two teams and the date returns a positive id that was
not stored before, and reading that id back finds the same teams and date
with the three counters at zero and `ExtraTime` false. -/
theorem create_then_get (ops : List Op) (home away date : String)
    (hb : (countCreates ops : Int) < maxInt) :
    0 < (CreateMatch (run NewMatchRepository ops)
      { Match.zero with HomeTeam := home, AwayTeam := away, MatchDate := date }).2 ∧
    (GetMatchByID (run NewMatchRepository ops) (CreateMatch (run NewMatchRepository ops)
      { Match.zero with HomeTeam := home, AwayTeam := away, MatchDate := date }).2).2
        = false ∧
    GetMatchByID (CreateMatch (run NewMatchRepository ops)
        { Match.zero with HomeTeam := home, AwayTeam := away, MatchDate := date }).1
      (CreateMatch (run NewMatchRepository ops)
        { Match.zero with HomeTeam := home, AwayTeam := away, MatchDate := date }).2
      = ({ ID := (run NewMatchRepository ops).nextID, HomeTeam := home, AwayTeam := away,
           MatchDate := date, GoalCount := 0, YellowCards := 0, RedCards := 0,
           ExtraTime := false }, true) := by
  obtain ⟨hn, hk⟩ := run_invariant ops NewMatchRepository (by decide)
    (by simp only [NewMatchRepository]; omega) (KeysOK_empty _)
  refine ⟨?_, ?_, ?_⟩
  · show 0 < (run NewMatchRepository ops).nextID
    rw [hn]
    simp only [NewMatchRepository]
    omega
  · simp only [CreateMatch, GetMatchByID]
    cases hl : (run NewMatchRepository ops).matches_.lookup (run NewMatchRepository ops).nextID with
    | none => rfl
    | some m => exact absurd (hk _ m hl).2.2 (lt_irrefl _)
  · simp only [CreateMatch, GetMatchByID, Finmap.lookup_insert, Match.zero]

/-- Witness of `create_then_get`: the example of the specification on a fresh
repository. -/
theorem create_then_get_witness :
    (CreateMatch NewMatchRepository samplePayload).2 = 1 ∧
    GetMatchByID (CreateMatch NewMatchRepository samplePayload).1 1
      = ({ ID := 1, HomeTeam := "A", AwayTeam := "B", MatchDate := "2024-01-01",
           GoalCount := 0, YellowCards := 0, RedCards := 0, ExtraTime := false }, true) :=
  ⟨rfl, (create_then_get [] "A" "B" "2024-01-01" (by decide)).2.2⟩

/-- C3 fails as stated: in the repository reached by `2^63 - 1` creates the
next create returns `-2^63`, which is not positive. -/
theorem create_returns_negative_after_wrap :
    (CreateMatch (run NewMatchRepository (longTrace ++ [Op.create samplePayload]))
      samplePayload).2 = -9223372036854775808 ∧
    ¬ (0 < (CreateMatch (run NewMatchRepository (longTrace ++ [Op.create samplePayload]))
      samplePayload).2) := by
  have h : (CreateMatch (run NewMatchRepository (longTrace ++ [Op.create samplePayload]))
      samplePayload).2 = -9223372036854775808 := by
    rw [run_append, run_singleton]
    exact (step_create_at_maxInt _ samplePayload run_longTrace_nextID).2
  refine ⟨h, ?_⟩
  rw [h]
  decide

/-! ## RegisterGoal -/

theorem RegisterGoalN_present (n : Nat) : ∀ (mr : MatchRepository) (id : Int) (m : Match),
    mr.matches_.lookup id = some m → minInt ≤ m.GoalCount → m.GoalCount + n ≤ maxInt →
    (RegisterGoalN mr id n).2 = List.replicate n true ∧
    (RegisterGoalN mr id n).1.matches_.lookup id
      = some { m with GoalCount := m.GoalCount + n } ∧
    (RegisterGoalN mr id n).1.nextID = mr.nextID := by
  induction n with
  | zero =>
    intro mr id m h _ _
    simp [RegisterGoalN, h]
  | succ n ih =>
    intro mr id m h h1 h2
    have hlt : m.GoalCount < maxInt := by push_cast at h2; omega
    have hr : RegisterGoal mr id
        = (MatchRepository.mk
            (mr.matches_.insert id ({ m with GoalCount := m.GoalCount + 1 } : Match))
            mr.nextID, true) := by
      simp only [RegisterGoal, h, incr_eq_of_lt h1 hlt]
    obtain ⟨i1, i2, i3⟩ := ih (RegisterGoal mr id).1 id { m with GoalCount := m.GoalCount + 1 }
      (by rw [hr]; exact Finmap.lookup_insert _) (by show minInt ≤ m.GoalCount + 1; omega)
      (by show m.GoalCount + 1 + (n : Int) ≤ maxInt; push_cast at h2; omega)
    refine ⟨?_, ?_, ?_⟩
    · rw [hr] at i1
      simp only [RegisterGoalN, i1, hr, List.replicate_succ]
    · simp only [RegisterGoalN, i2]
      have : m.GoalCount + 1 + (n : Int) = m.GoalCount + ((n + 1 : Nat) : Int) := by
        push_cast; omega
      simp only [this]
    · rw [hr] at i3
      simp only [RegisterGoalN, hr, i3]

/-- C5 (as amended): if a record is stored under the id and its goal count
plus `n` does not exceed the largest `int`, `n` successive `RegisterGoal`
calls all return `true` and leave the goal count exactly `n` higher, the rest
of the record as it was; if no record is stored under the id, `RegisterGoal`
returns `false`, the state is unchanged and the id is still not stored. -/
theorem RegisterGoal_spec (mr : MatchRepository) (id : Int) (n : Nat) :
    (∀ m, mr.matches_.lookup id = some m → minInt ≤ m.GoalCount →
      m.GoalCount + n ≤ maxInt →
      (RegisterGoalN mr id n).2 = List.replicate n true ∧
      (RegisterGoalN mr id n).1.matches_.lookup id
        = some { m with GoalCount := m.GoalCount + n }) ∧
    (mr.matches_.lookup id = none →
      RegisterGoal mr id = (mr, false) ∧
      (GetMatchByID (RegisterGoal mr id).1 id).2 = false) := by
  constructor
  · intro m h h1 h2
    obtain ⟨i1, i2, _⟩ := RegisterGoalN_present n mr id m h h1 h2
    exact ⟨i1, i2⟩
  · intro h
    simp [RegisterGoal, GetMatchByID, h]

/-- Witness of `RegisterGoal_spec`: three goals on a freshly created match
give a goal count of 3, and a goal on the missing id 9 changes nothing. -/
theorem RegisterGoal_spec_witness :
    (RegisterGoalN oneMatchRepo 1 3).2 = [true, true, true] ∧
    (RegisterGoalN oneMatchRepo 1 3).1.matches_.lookup 1
      = some { samplePayload with ID := 1, GoalCount := 3 } ∧
    RegisterGoal oneMatchRepo 9 = (oneMatchRepo, false) := by
  have h := (RegisterGoal_spec oneMatchRepo 1 3).1 _ lookup_oneMatchRepo
    (by decide) (by decide)
  refine ⟨h.1, h.2, ?_⟩
  exact ((RegisterGoal_spec oneMatchRepo 9 0).2
    (by simp [oneMatchRepo, CreateMatch, NewMatchRepository])).1

/-- C5 fails as stated: on a stored record whose goal count is the largest
`int`, `RegisterGoal` returns `true` and leaves the goal count at `-2^63`,
which is not one higher. -/
theorem RegisterGoal_wraps :
    (GetMatchByID maxGoalsRepo 1).1.GoalCount = 9223372036854775807 ∧
    (RegisterGoal maxGoalsRepo 1).2 = true ∧
    (GetMatchByID (RegisterGoal maxGoalsRepo 1).1 1).1.GoalCount = -9223372036854775808 ∧
    (GetMatchByID (RegisterGoal maxGoalsRepo 1).1 1).1.GoalCount
      ≠ (GetMatchByID maxGoalsRepo 1).1.GoalCount + 1 := by
  have h : maxGoalsRepo.matches_.lookup 1
      = some { samplePayload with ID := 1, GoalCount := maxInt } := by
    simp [maxGoalsRepo, CreateMatch, NewMatchRepository]
  simp only [RegisterGoal, GetMatchByID, h, Finmap.lookup_insert]
  decide

/-! ## The extra-time flag -/

/-- C9 (as amended): in a repository whose next id is not yet stored, a stored
record with `ExtraTime` set keeps it set across every call other than an
`UpdateMatch` of that same id, as long as the record stays stored; an
`UpdateMatch` of that id sets the flag to the one of its payload. -/
theorem extraTime_kept (mr : MatchRepository) (id : Int) (m : Match) (op : Op)
    (h : mr.matches_.lookup id = some m) (ht : m.ExtraTime = true)
    (hfree : mr.matches_.lookup mr.nextID = none)
    (hop : ∀ p, op ≠ Op.update id p) :
    (∀ m2, (step mr op).matches_.lookup id = some m2 → m2.ExtraTime = true) ∧
    (∀ p, (GetMatchByID (UpdateMatch mr id p).1 id).1.ExtraTime = p.ExtraTime) := by
  constructor
  · intro m2 h2
    cases op with
    | create p =>
      have hne : id ≠ mr.nextID := by
        intro he
        rw [he, hfree] at h
        cases h
      simp only [step, CreateMatch] at h2
      rw [Finmap.lookup_insert_of_ne _ hne, h] at h2
      cases h2
      exact ht
    | update id2 p =>
      have hne : id ≠ id2 := by
        intro he
        exact hop p (by rw [he])
      simp only [step, UpdateMatch] at h2
      split at h2
      · rw [h] at h2; cases h2; exact ht
      · simp only at h2
        rw [Finmap.lookup_insert_of_ne _ hne, h] at h2
        cases h2
        exact ht
    | delete id2 =>
      simp only [step, DeleteMatch] at h2
      split at h2
      · rw [h] at h2; cases h2; exact ht
      · simp only at h2
        by_cases hne : id = id2
        · subst hne
          rw [Finmap.lookup_erase] at h2
          cases h2
        · rw [Finmap.lookup_erase_ne hne, h] at h2
          cases h2
          exact ht
    | goal id2 =>
      simp only [step, RegisterGoal] at h2
      split at h2
      · rw [h] at h2; cases h2; exact ht
      · next m0 hl =>
        simp only at h2
        by_cases hne : id = id2
        · subst hne
          rw [Finmap.lookup_insert] at h2
          rw [h] at hl
          cases hl
          cases h2
          exact ht
        · rw [Finmap.lookup_insert_of_ne _ hne, h] at h2
          cases h2
          exact ht
    | yellow id2 =>
      simp only [step, RegisterYellowCard] at h2
      split at h2
      · rw [h] at h2; cases h2; exact ht
      · next m0 hl =>
        simp only at h2
        by_cases hne : id = id2
        · subst hne
          rw [Finmap.lookup_insert] at h2
          rw [h] at hl
          cases hl
          cases h2
          exact ht
        · rw [Finmap.lookup_insert_of_ne _ hne, h] at h2
          cases h2
          exact ht
    | red id2 =>
      simp only [step, RegisterRedCard] at h2
      split at h2
      · rw [h] at h2; cases h2; exact ht
      · next m0 hl =>
        simp only at h2
        by_cases hne : id = id2
        · subst hne
          rw [Finmap.lookup_insert] at h2
          rw [h] at hl
          cases hl
          cases h2
          exact ht
        · rw [Finmap.lookup_insert_of_ne _ hne, h] at h2
          cases h2
          exact ht
    | extra id2 =>
      simp only [step, SetExtraTime] at h2
      split at h2
      · rw [h] at h2; cases h2; exact ht
      · next m0 hl =>
        simp only at h2
        by_cases hne : id = id2
        · subst hne
          rw [Finmap.lookup_insert] at h2
          cases h2
          rfl
        · rw [Finmap.lookup_insert_of_ne _ hne, h] at h2
          cases h2
          exact ht
  · intro p
    simp only [UpdateMatch, GetMatchByID, h, Finmap.lookup_insert]

/-- Witness of `extraTime_kept`: a goal registered on a match in extra time
leaves it stored and in extra time. -/
theorem extraTime_kept_witness :
    (GetMatchByID (step extraTimeRepo (Op.goal 1)) 1).2 = true ∧
    (GetMatchByID (step extraTimeRepo (Op.goal 1)) 1).1.ExtraTime = true := by
  have hl : extraTimeRepo.matches_.lookup 1
      = some { samplePayload with ID := 1, ExtraTime := true } := by
    simp [extraTimeRepo, SetExtraTime, lookup_oneMatchRepo]
  have h2 : (step extraTimeRepo (Op.goal 1)).matches_.lookup 1
      = some { samplePayload with ID := 1, ExtraTime := true, GoalCount := 1 } := by
    simp only [step, RegisterGoal, hl, Finmap.lookup_insert]
    rfl
  have hfree : extraTimeRepo.matches_.lookup extraTimeRepo.nextID = none := by
    simp [extraTimeRepo, SetExtraTime, lookup_oneMatchRepo, oneMatchRepo, CreateMatch,
      NewMatchRepository, incr, wrapInt]
  have hkept := (extraTime_kept extraTimeRepo 1 _ (Op.goal 1) hl rfl hfree
    (by intro p hp; cases hp)).1 _ h2
  have hg : GetMatchByID (step extraTimeRepo (Op.goal 1)) 1
      = ({ samplePayload with ID := 1, ExtraTime := true, GoalCount := 1 }, true) := by
    simp only [GetMatchByID, h2]
  rw [hg]
  exact ⟨rfl, hkept⟩

/-- C9 fails as stated: a match in extra time that is updated with a payload
whose `ExtraTime` is false is still stored and no longer in extra time. -/
theorem UpdateMatch_resets_extraTime :
    (GetMatchByID extraTimeRepo 1).2 = true ∧
    (GetMatchByID extraTimeRepo 1).1.ExtraTime = true ∧
    (GetMatchByID (UpdateMatch extraTimeRepo 1 samplePayload).1 1).2 = true ∧
    (GetMatchByID (UpdateMatch extraTimeRepo 1 samplePayload).1 1).1.ExtraTime = false := by
  have h : extraTimeRepo.matches_.lookup 1
      = some { samplePayload with ID := 1, ExtraTime := true } := by
    simp [extraTimeRepo, SetExtraTime, lookup_oneMatchRepo]
  simp only [UpdateMatch, GetMatchByID, h, Finmap.lookup_insert]
  decide

/-! ## Counter non-negativity -/

theorem countersWithin_mono {m : Match} {c c2 : Int} (h : m.countersWithin c = true)
    (hle : c ≤ c2) : m.countersWithin c2 = true := by
  simp only [Match.countersWithin, decide_eq_true_eq] at h ⊢
  omega

theorem CountersIn_insert {f : Finmap (fun _ : Int => Match)} {c : Int}
    (h : CountersIn f c) (id : Int) (m : Match) (hm : m.countersWithin c = true) :
    CountersIn (f.insert id m) c := by
  intro k m2 hk
  by_cases hkid : k = id
  · subst hkid
    rw [Finmap.lookup_insert] at hk
    cases hk
    exact hm
  · rw [Finmap.lookup_insert_of_ne _ hkid] at hk
    exact h k m2 hk

theorem CountersIn_mono {f : Finmap (fun _ : Int => Match)} {c c2 : Int}
    (h : CountersIn f c) (hle : c ≤ c2) : CountersIn f c2 :=
  fun k m hk => countersWithin_mono (h k m hk) hle

/-- One call raises the bound on the stored counters by at most one, as long
as its payload respects the bound and the bound is below the largest `int`. -/
theorem step_CountersIn (mr : MatchRepository) (op : Op) (B c : Int)
    (hB : B ≤ c) (hc : c < maxInt) (hp : op.payloadWithin B = true)
    (h : CountersIn mr.matches_ c) : CountersIn (step mr op).matches_ (c + 1) := by
  have hup : CountersIn mr.matches_ (c + 1) := CountersIn_mono h (by omega)
  have hincr : ∀ x : Int, 0 ≤ x → x ≤ c → incr x = x + 1 := fun x h0 h1 =>
    incr_eq_of_lt (le_trans (by decide) h0) (lt_of_le_of_lt h1 hc)
  cases op with
  | create p =>
    simp only [step, CreateMatch]
    refine CountersIn_insert hup _ _ ?_
    simp only [Op.payloadWithin, Match.countersWithin, decide_eq_true_eq] at hp ⊢
    omega
  | update id p =>
    simp only [step, UpdateMatch]
    split
    · exact hup
    · refine CountersIn_insert hup _ _ ?_
      simp only [Op.payloadWithin, Match.countersWithin, decide_eq_true_eq] at hp ⊢
      omega
  | delete id =>
    simp only [step, DeleteMatch]
    split
    · exact hup
    · intro k m hk
      by_cases hkid : k = id
      · subst hkid
        simp only [Finmap.lookup_erase] at hk
        cases hk
      · simp only [Finmap.lookup_erase_ne hkid] at hk
        exact hup k m hk
  | goal id =>
    simp only [step, RegisterGoal]
    split
    · exact hup
    · next m0 hl =>
      refine CountersIn_insert hup _ _ ?_
      have h0 := h id m0 hl
      simp only [Match.countersWithin, decide_eq_true_eq] at h0 ⊢
      rw [hincr _ h0.1 h0.2.1]
      omega
  | yellow id =>
    simp only [step, RegisterYellowCard]
    split
    · exact hup
    · next m0 hl =>
      refine CountersIn_insert hup _ _ ?_
      have h0 := h id m0 hl
      simp only [Match.countersWithin, decide_eq_true_eq] at h0 ⊢
      rw [hincr _ h0.2.2.1 h0.2.2.2.1]
      omega
  | red id =>
    simp only [step, RegisterRedCard]
    split
    · exact hup
    · next m0 hl =>
      refine CountersIn_insert hup _ _ ?_
      have h0 := h id m0 hl
      simp only [Match.countersWithin, decide_eq_true_eq] at h0 ⊢
      rw [hincr _ h0.2.2.2.2.1 h0.2.2.2.2.2]
      omega
  | extra id =>
    simp only [step, SetExtraTime]
    split
    · exact hup
    · next m0 hl =>
      refine CountersIn_insert hup _ _ ?_
      have h0 := h id m0 hl
      simp only [Match.countersWithin, decide_eq_true_eq] at h0 ⊢
      omega

/-- A call other than the three counter operations keeps the bound on the
stored counters, as long as its payload respects the bound. -/
theorem step_CountersIn_of_not_register (mr : MatchRepository) (op : Op) (B c : Int)
    (hB : B ≤ c) (hr : op.isRegister = false) (hp : op.payloadWithin B = true)
    (h : CountersIn mr.matches_ c) : CountersIn (step mr op).matches_ c := by
  cases op with
  | create p =>
    simp only [step, CreateMatch]
    refine CountersIn_insert h _ _ ?_
    simp only [Op.payloadWithin, Match.countersWithin, decide_eq_true_eq] at hp ⊢
    omega
  | update id p =>
    simp only [step, UpdateMatch]
    split
    · exact h
    · refine CountersIn_insert h _ _ ?_
      simp only [Op.payloadWithin, Match.countersWithin, decide_eq_true_eq] at hp ⊢
      omega
  | delete id =>
    simp only [step, DeleteMatch]
    split
    · exact h
    · intro k m hk
      by_cases hkid : k = id
      · subst hkid
        simp only [Finmap.lookup_erase] at hk
        cases hk
      · simp only [Finmap.lookup_erase_ne hkid] at hk
        exact h k m hk
  | goal id => simp [Op.isRegister] at hr
  | yellow id => simp [Op.isRegister] at hr
  | red id => simp [Op.isRegister] at hr
  | extra id =>
    simp only [step, SetExtraTime]
    split
    · exact h
    · next m0 hl =>
      refine CountersIn_insert h _ _ ?_
      have h0 := h id m0 hl
      simp only [Match.countersWithin, decide_eq_true_eq] at h0 ⊢
      omega

theorem run_CountersIn (B : Int) (ops : List Op) : ∀ (mr : MatchRepository) (c : Int),
    B ≤ c → c + countRegisters ops ≤ maxInt → (∀ op ∈ ops, op.payloadWithin B = true) →
    CountersIn mr.matches_ c →
    CountersIn (run mr ops).matches_ (c + countRegisters ops) := by
  induction ops with
  | nil =>
    intro mr c _ _ _ h
    simpa [run, countRegisters] using h
  | cons op ops ih =>
    intro mr c hB hlen hp h
    simp only [countRegisters] at hlen ⊢
    simp only [run]
    cases hr : op.isRegister with
    | false =>
      simp only [hr, Bool.false_eq_true, if_false, add_zero] at hlen ⊢
      have h1 := step_CountersIn_of_not_register mr op B c hB hr
        (hp op (List.mem_cons_self _ _)) h
      exact ih (step mr op) c hB hlen (fun o ho => hp o (List.mem_cons_of_mem _ ho)) h1
    | true =>
      simp only [hr, if_true, Nat.cast_add, Nat.cast_one] at hlen ⊢
      have h1 := step_CountersIn mr op B c hB (by omega) (hp op (List.mem_cons_self _ _)) h
      have h2 := ih (step mr op) (c + 1) (by omega) (by omega)
        (fun o ho => hp o (List.mem_cons_of_mem _ ho)) h1
      have e : c + 1 + (countRegisters ops : Int) = c + (countRegisters ops + 1) := by omega
      rw [e] at h2
      exact h2

/-- C11 (as amended): in every repository reached from `NewMatchRepository` by
a sequence of calls whose payloads carry counters between 0 and `B`, where
`B` plus the number of `RegisterGoal`, `RegisterYellowCard` and
`RegisterRedCard` calls of the sequence does not exceed the largest `int`,
every stored match has non-negative `GoalCount`, `YellowCards` and
`RedCards`. -/
theorem counters_nonneg (B : Int) (ops : List Op)
    (hp : ∀ op ∈ ops, op.payloadWithin B = true)
    (hlen : B + countRegisters ops ≤ maxInt) :
    ∀ k m, (run NewMatchRepository ops).matches_.lookup k = some m →
      0 ≤ m.GoalCount ∧ 0 ≤ m.YellowCards ∧ 0 ≤ m.RedCards := by
  intro k m hk
  have h := run_CountersIn B ops NewMatchRepository B (le_refl _) hlen hp
    (fun k m hk => by simp [NewMatchRepository, Finmap.lookup_empty] at hk) k m hk
  simp only [Match.countersWithin, decide_eq_true_eq] at h
  exact ⟨h.1, h.2.2.1, h.2.2.2.2.1⟩

/-- Witness of `counters_nonneg`: a create of the sample payload followed by
two goals and a red card leaves id 1 with non-negative counters; and so does a
single create whose payload carries the largest `int` as goal count. -/
theorem counters_nonneg_witness :
    ((run NewMatchRepository
      [Op.create samplePayload, Op.goal 1, Op.goal 1, Op.red 1]).matches_.lookup 1
      = some { samplePayload with ID := 1, GoalCount := 2, RedCards := 1 } ∧
    (0 : Int) ≤ 2 ∧ (0 : Int) ≤ 0 ∧ (0 : Int) ≤ 1) ∧
    ((run NewMatchRepository
      [Op.create { samplePayload with GoalCount := maxInt }]).matches_.lookup 1
      = some { samplePayload with ID := 1, GoalCount := maxInt } ∧
    (0 : Int) ≤ maxInt ∧ (0 : Int) ≤ 0 ∧ (0 : Int) ≤ 0) := by
  have hl : (run NewMatchRepository
      [Op.create samplePayload, Op.goal 1, Op.goal 1, Op.red 1]).matches_.lookup 1
      = some { samplePayload with ID := 1, GoalCount := 2, RedCards := 1 } := by
    simp [run, step, CreateMatch, RegisterGoal, RegisterRedCard, NewMatchRepository,
      Finmap.lookup_insert, incr, wrapInt, samplePayload, Match.zero]
  have hm : (run NewMatchRepository
      [Op.create { samplePayload with GoalCount := maxInt }]).matches_.lookup 1
      = some { samplePayload with ID := 1, GoalCount := maxInt } := by
    simp [run, step, CreateMatch, NewMatchRepository, Finmap.lookup_insert]
  exact ⟨⟨hl, counters_nonneg 0 [Op.create samplePayload, Op.goal 1, Op.goal 1, Op.red 1]
      (by decide) (by decide) 1 _ hl⟩,
    ⟨hm, counters_nonneg maxInt [Op.create { samplePayload with GoalCount := maxInt }]
      (by decide) (by decide) 1 _ hm⟩⟩

/-- C11 fails as stated: a create whose payload carries `GoalCount = -1` leaves
a stored match with a negative goal count. -/
theorem negative_counter_stored :
    GetMatchByID (run NewMatchRepository [Op.create { samplePayload with GoalCount := -1 }]) 1
      = ({ samplePayload with ID := 1, GoalCount := -1 }, true) ∧
    (GetMatchByID (run NewMatchRepository
      [Op.create { samplePayload with GoalCount := -1 }]) 1).1.GoalCount < 0 := by
  have h : GetMatchByID (run NewMatchRepository
      [Op.create { samplePayload with GoalCount := -1 }]) 1
      = ({ samplePayload with ID := 1, GoalCount := -1 }, true) := by
    simp [run, step, CreateMatch, GetMatchByID, NewMatchRepository]
  refine ⟨h, ?_⟩
  rw [h]
  decide

/-! ## GetAllMatches -/

theorem entries_map_snd (l : List (Sigma (fun _ : Int => Match))) (nd : l.NodupKeys) :
    l.map (fun e => e.2)
      = l.keys.map (fun k => (match l.dlookup k with
          | some m => (m, true)
          | none => (Match.zero, false)).1) := by
  unfold List.keys
  rw [List.map_map]
  apply List.map_congr_left
  intro e he
  have : l.dlookup e.1 = some e.2 := List.mem_dlookup nd (by cases e; exact he)
  simp [this]

/-- The returned multiset is the image of the set of stored keys under the
lookup. -/
theorem GetAllMatches_eq_keys_map (mr : MatchRepository) :
    (GetAllMatches mr).2 = mr.matches_.keys.val.map (fun k => (GetMatchByID mr k).1) := by
  obtain ⟨f, n⟩ := mr
  induction f using Finmap.induction_on with
  | H s =>
    simp only [GetAllMatches, GetMatchByID, Finmap.keys_val, Finmap.lookup_toFinmap,
      AList.toFinmap_entries, AList.lookup, AList.keys, Multiset.map_coe]
    rw [entries_map_snd s.entries s.nodupKeys]

/-- C12: `GetAllMatches` returns the stored records, one per stored id and
nothing else, in no particular order: the result is the image of the key set
under the lookup, its length is the number of stored ids, a record is in it
exactly when some id is found with that record, and the state is unchanged. -/
theorem GetAllMatches_spec (mr : MatchRepository) :
    (GetAllMatches mr).2 = mr.matches_.keys.val.map (fun k => (GetMatchByID mr k).1) ∧
    Multiset.card (GetAllMatches mr).2 = mr.matches_.keys.card ∧
    (∀ id r, GetMatchByID mr id = (r, true) → r ∈ (GetAllMatches mr).2) ∧
    (∀ r, r ∈ (GetAllMatches mr).2 → ∃ id, GetMatchByID mr id = (r, true)) ∧
    (GetAllMatches mr).1 = mr := by
  have he := GetAllMatches_eq_keys_map mr
  have hfound : ∀ id r, GetMatchByID mr id = (r, true) → mr.matches_.lookup id = some r := by
    intro id r h
    unfold GetMatchByID at h
    cases hl : mr.matches_.lookup id with
    | none => simp [hl] at h
    | some m =>
      simp only [hl, Prod.mk.injEq, and_true] at h
      rw [h]
  refine ⟨he, ?_, ?_, ?_, rfl⟩
  · rw [he, Multiset.card_map]
    rfl
  · intro id r h
    have hl := hfound id r h
    rw [he, Multiset.mem_map]
    refine ⟨id, ?_, ?_⟩
    · exact Finmap.mem_keys.mpr (Finmap.mem_of_lookup_eq_some hl)
    · rw [h]
  · intro r hr
    rw [he, Multiset.mem_map] at hr
    obtain ⟨id, hid, hr⟩ := hr
    have hmem : id ∈ mr.matches_ := Finmap.mem_keys.mp hid
    obtain ⟨m, hm⟩ := Finmap.mem_iff.mp hmem
    refine ⟨id, ?_⟩
    simp only [GetMatchByID, hm] at hr ⊢
    rw [hr]

/-! ## HTTP handlers -/

/-- The repository call behind a handler that mutates: its result is the
presence of the id, and on an absent id the state is returned as it was. -/
theorem mutator_result (mr : MatchRepository) (id : Int) :
    ((DeleteMatch mr id).2 = (GetMatchByID mr id).2 ∧
      ((GetMatchByID mr id).2 = false → (DeleteMatch mr id).1 = mr)) ∧
    ((RegisterGoal mr id).2 = (GetMatchByID mr id).2 ∧
      ((GetMatchByID mr id).2 = false → (RegisterGoal mr id).1 = mr)) ∧
    ((RegisterYellowCard mr id).2 = (GetMatchByID mr id).2 ∧
      ((GetMatchByID mr id).2 = false → (RegisterYellowCard mr id).1 = mr)) ∧
    ((RegisterRedCard mr id).2 = (GetMatchByID mr id).2 ∧
      ((GetMatchByID mr id).2 = false → (RegisterRedCard mr id).1 = mr)) ∧
    ((SetExtraTime mr id).2 = (GetMatchByID mr id).2 ∧
      ((GetMatchByID mr id).2 = false → (SetExtraTime mr id).1 = mr)) := by
  unfold DeleteMatch RegisterGoal RegisterYellowCard RegisterRedCard SetExtraTime GetMatchByID
  cases h : mr.matches_.lookup id <;> simp

/-- The handler closures, once the router has dispatched to them: the status
is 400 when the segment does not parse, otherwise 404 when the id is not
stored, otherwise 200; and a handler that answers 400 or 404 leaves the
repository as it was. -/
theorem handle_status (atoi : String → Option Int) (mr : MatchRepository) (e : Endpoint)
    (seg : String) :
    (atoi seg = none → (handle atoi mr e seg).2 = 400) ∧
    (∀ id, atoi seg = some id → (GetMatchByID mr id).2 = false →
      (handle atoi mr e seg).2 = 404) ∧
    (∀ id, atoi seg = some id → (GetMatchByID mr id).2 = true →
      (handle atoi mr e seg).2 = 200) ∧
    ((handle atoi mr e seg).2 = 400 ∨ (handle atoi mr e seg).2 = 404 →
      (handle atoi mr e seg).1 = mr) := by
  cases ha : atoi seg with
  | none => simp [handle, ha, StatusBadRequest]
  | some id =>
    obtain ⟨hd, hg, hy, hr, hx⟩ := mutator_result mr id
    cases hf : (GetMatchByID mr id).2 with
    | false =>
      cases e <;>
        simp [handle, ha, hf, hd.1, hg.1, hy.1, hr.1, hx.1, hd.2 hf, hg.2 hf, hy.2 hf,
          hr.2 hf, hx.2 hf, StatusNotFound]
    | true =>
      cases e <;>
        simp [handle, ha, hf, hd.1, hg.1, hy.1, hr.1, hx.1, StatusOK]

/-- C13 (as amended): for each route that takes an id and no body, every
repository state and every path segment: if the segment is not empty and is
neither `.` nor `..`, the status is 400 when the segment does not parse,
otherwise 404 when the id is not stored, otherwise 200; whatever the segment,
a request answered with 400 or 404 leaves the repository as it was; and an
empty segment, `.` or `..` is answered by the router, with 404 or 301 and the
repository as it was. -/
theorem serve_status (atoi : String → Option Int) (mr : MatchRepository) (e : Endpoint)
    (seg : PathSegment) :
    (seg.val ≠ "" → seg.val ≠ "." → seg.val ≠ ".." →
      (atoi seg.val = none → (serve atoi mr e seg).2 = 400) ∧
      (∀ id, atoi seg.val = some id → (GetMatchByID mr id).2 = false →
        (serve atoi mr e seg).2 = 404) ∧
      (∀ id, atoi seg.val = some id → (GetMatchByID mr id).2 = true →
        (serve atoi mr e seg).2 = 200)) ∧
    ((serve atoi mr e seg).2 = 400 ∨ (serve atoi mr e seg).2 = 404 →
      (serve atoi mr e seg).1 = mr) ∧
    (seg.val = "" ∨ seg.val = "." ∨ seg.val = ".." →
      (serve atoi mr e seg).1 = mr ∧
      ((serve atoi mr e seg).2 = 404 ∨ (serve atoi mr e seg).2 = 301)) := by
  have hh := handle_status atoi mr e seg.val
  by_cases h1 : seg.val = "." ∨ seg.val = ".."
  · have hs : serve atoi mr e seg = (mr, StatusMovedPermanently) := by
      simp [serve, routerFront, h1]
    rw [hs]
    refine ⟨?_, fun _ => rfl, fun _ => ⟨rfl, Or.inr rfl⟩⟩
    intro _ h2 h3
    rcases h1 with h1 | h1
    · exact absurd h1 h2
    · exact absurd h1 h3
  · by_cases h0 : seg.val = ""
    · have hr : routerFront e seg
          = some (if e.hasTail then StatusMovedPermanently else StatusNotFound) := by
        unfold routerFront
        rw [if_neg h1, if_pos h0]
        cases e.hasTail <;> rfl
      have hs : serve atoi mr e seg
          = (mr, if e.hasTail then StatusMovedPermanently else StatusNotFound) := by
        simp only [serve, hr]
      rw [hs]
      refine ⟨fun h => absurd h0 h, fun _ => rfl, fun _ => ⟨rfl, ?_⟩⟩
      cases e.hasTail
      · exact Or.inl rfl
      · exact Or.inr rfl
    · have hs : serve atoi mr e seg = handle atoi mr e seg.val := by
        simp [serve, routerFront, h1, h0]
      rw [hs]
      refine ⟨fun _ _ _ => ⟨hh.1, hh.2.1, hh.2.2.1⟩, hh.2.2.2, ?_⟩
      intro h
      rcases h with h | h | h
      · exact absurd h h0
      · exact absurd (Or.inl h) h1
      · exact absurd (Or.inr h) h1

/-- Witness of `serve_status`, with `Atoi` as the parser and a repository
holding id 1: a goal on `1` is answered 200, on `7` with 404 and on `abc`
with 400, and the last two leave the repository as it was. -/
theorem serve_status_witness :
    (serve Atoi oneMatchRepo Endpoint.goals segmentOne).2 = 200 ∧
    serve Atoi oneMatchRepo Endpoint.goals segmentSeven = (oneMatchRepo, 404) ∧
    serve Atoi oneMatchRepo Endpoint.goals segmentAbc = (oneMatchRepo, 400) := by
  have h1 := (serve_status Atoi oneMatchRepo Endpoint.goals segmentOne).1
    (by decide) (by decide) (by decide)
  have h7 := serve_status Atoi oneMatchRepo Endpoint.goals segmentSeven
  have ha := serve_status Atoi oneMatchRepo Endpoint.goals segmentAbc
  have e1 : Atoi segmentOne.val = some 1 := by decide
  have e7 : Atoi segmentSeven.val = some 7 := by decide
  have ea : Atoi segmentAbc.val = none := by decide
  have f1 : (GetMatchByID oneMatchRepo 1).2 = true := by
    simp [GetMatchByID, lookup_oneMatchRepo]
  have f7 : (GetMatchByID oneMatchRepo 7).2 = false := by
    simp [GetMatchByID, oneMatchRepo, CreateMatch, NewMatchRepository]
  have s7 := (h7.1 (by decide) (by decide) (by decide)).2.1 7 e7 f7
  have sa := (ha.1 (by decide) (by decide) (by decide)).1 ea
  refine ⟨h1.2.2 1 e1 f1, ?_, ?_⟩
  · exact Prod.ext (h7.2.1 (Or.inr s7)) s7
  · exact Prod.ext (ha.2.1 (Or.inl sa)) sa

/-- C13 fails as stated: the empty segment does not parse as an integer, yet a
`GET` of `/api/matches/` is answered 404 by the router, not 400. -/
theorem serve_empty_segment :
    Atoi emptySegment.val = none ∧
    (serve Atoi oneMatchRepo Endpoint.getMatch emptySegment).2 = 404 ∧
    (serve Atoi oneMatchRepo Endpoint.getMatch emptySegment).2 ≠ 400 := by
  have hs : serve Atoi oneMatchRepo Endpoint.getMatch emptySegment
      = (oneMatchRepo, StatusNotFound) := rfl
  rw [hs]
  exact ⟨by decide, rfl, by decide⟩

/-! ## Frame of the three counter operations -/

/-- Rebinding a stored key keeps the key set and every other binding. -/
theorem insert_stored_frame (f : Finmap (fun _ : Int => Match)) (id : Int) (m m2 : Match)
    (h : f.lookup id = some m) :
    (f.insert id m2).keys = f.keys ∧
    ∀ k, k ≠ id → (f.insert id m2).lookup k = f.lookup k := by
  constructor
  · ext k
    simp only [Finmap.mem_keys, Finmap.mem_insert]
    constructor
    · rintro (hk | hk)
      · rw [hk]; exact Finmap.mem_of_lookup_eq_some h
      · exact hk
    · exact fun hk => Or.inr hk
  · intro k hk
    exact Finmap.lookup_insert_of_ne _ hk

/-- C15 (as amended): on a stored id, each of `RegisterGoal`,
`RegisterYellowCard` and `RegisterRedCard` whose own counter is below the
largest `int` returns `true` and rebinds the id to the old record with that
counter one higher and every other field as it was; the key set, the records
under other ids and the next-id counter are unchanged.  On an absent id each
returns `false` and the state is unchanged. -/
theorem Register_frame (mr : MatchRepository) (id : Int) :
    (∀ m, mr.matches_.lookup id = some m →
      (minInt ≤ m.GoalCount → m.GoalCount < maxInt →
        (RegisterGoal mr id).2 = true ∧
        (RegisterGoal mr id).1.matches_.lookup id
          = some { m with GoalCount := m.GoalCount + 1 } ∧
        (RegisterGoal mr id).1.matches_.keys = mr.matches_.keys ∧
        (∀ k, k ≠ id → (RegisterGoal mr id).1.matches_.lookup k = mr.matches_.lookup k) ∧
        (RegisterGoal mr id).1.nextID = mr.nextID) ∧
      (minInt ≤ m.YellowCards → m.YellowCards < maxInt →
        (RegisterYellowCard mr id).2 = true ∧
        (RegisterYellowCard mr id).1.matches_.lookup id
          = some { m with YellowCards := m.YellowCards + 1 } ∧
        (RegisterYellowCard mr id).1.matches_.keys = mr.matches_.keys ∧
        (∀ k, k ≠ id →
          (RegisterYellowCard mr id).1.matches_.lookup k = mr.matches_.lookup k) ∧
        (RegisterYellowCard mr id).1.nextID = mr.nextID) ∧
      (minInt ≤ m.RedCards → m.RedCards < maxInt →
        (RegisterRedCard mr id).2 = true ∧
        (RegisterRedCard mr id).1.matches_.lookup id
          = some { m with RedCards := m.RedCards + 1 } ∧
        (RegisterRedCard mr id).1.matches_.keys = mr.matches_.keys ∧
        (∀ k, k ≠ id →
          (RegisterRedCard mr id).1.matches_.lookup k = mr.matches_.lookup k) ∧
        (RegisterRedCard mr id).1.nextID = mr.nextID)) ∧
    (mr.matches_.lookup id = none →
      RegisterGoal mr id = (mr, false) ∧ RegisterYellowCard mr id = (mr, false) ∧
      RegisterRedCard mr id = (mr, false)) := by
  constructor
  · intro m h
    refine ⟨?_, ?_, ?_⟩
    · intro h1 h2
      obtain ⟨hk, ho⟩ := insert_stored_frame mr.matches_ id m
        { m with GoalCount := incr m.GoalCount } h
      simp only [RegisterGoal, h]
      refine ⟨trivial, ?_, hk, ho, trivial⟩
      rw [Finmap.lookup_insert, incr_eq_of_lt h1 h2]
    · intro h1 h2
      obtain ⟨hk, ho⟩ := insert_stored_frame mr.matches_ id m
        { m with YellowCards := incr m.YellowCards } h
      simp only [RegisterYellowCard, h]
      refine ⟨trivial, ?_, hk, ho, trivial⟩
      rw [Finmap.lookup_insert, incr_eq_of_lt h1 h2]
    · intro h1 h2
      obtain ⟨hk, ho⟩ := insert_stored_frame mr.matches_ id m
        { m with RedCards := incr m.RedCards } h
      simp only [RegisterRedCard, h]
      refine ⟨trivial, ?_, hk, ho, trivial⟩
      rw [Finmap.lookup_insert, incr_eq_of_lt h1 h2]
  · intro h
    simp [RegisterGoal, RegisterYellowCard, RegisterRedCard, h]

/-- Witness of `Register_frame`: a yellow card on a freshly created match
raises only `YellowCards`, to 1, and a red card on the missing id 9 changes
nothing. -/
theorem Register_frame_witness :
    (RegisterYellowCard oneMatchRepo 1).1.matches_.lookup 1
      = some { samplePayload with ID := 1, YellowCards := 1 } ∧
    (RegisterYellowCard oneMatchRepo 1).1.nextID = 2 ∧
    RegisterRedCard oneMatchRepo 9 = (oneMatchRepo, false) := by
  have h := ((Register_frame oneMatchRepo 1).1 _ lookup_oneMatchRepo).2.1
    (by decide) (by decide)
  refine ⟨h.2.1, ?_, ?_⟩
  · rw [h.2.2.2.2]
    rfl
  · exact ((Register_frame oneMatchRepo 9).2
      (by simp [oneMatchRepo, CreateMatch, NewMatchRepository])).2.2

/-- C15 fails as stated: on a stored record whose `YellowCards` is the largest
`int`, `RegisterYellowCard` returns `true` and leaves it at `-2^63`, which is
not one higher. -/
theorem RegisterYellowCard_wraps :
    (GetMatchByID maxYellowRepo 1).1.YellowCards = 9223372036854775807 ∧
    (RegisterYellowCard maxYellowRepo 1).2 = true ∧
    (GetMatchByID (RegisterYellowCard maxYellowRepo 1).1 1).1.YellowCards
      = -9223372036854775808 ∧
    (GetMatchByID (RegisterYellowCard maxYellowRepo 1).1 1).1.YellowCards
      ≠ (GetMatchByID maxYellowRepo 1).1.YellowCards + 1 := by
  have h : maxYellowRepo.matches_.lookup 1
      = some { samplePayload with ID := 1, YellowCards := maxInt } := by
    simp [maxYellowRepo, CreateMatch, NewMatchRepository]
  simp only [RegisterYellowCard, GetMatchByID, h, Finmap.lookup_insert]
  decide

/-! ## Sequential ids -/

theorem countCreates_append (xs ys : List Op) :
    countCreates (xs ++ ys) = countCreates xs + countCreates ys := by
  induction xs with
  | nil => simp [countCreates]
  | cons x xs ih =>
    rw [List.cons_append, countCreates_cons, countCreates_cons, ih]
    omega

/-- Along a run whose creates the counter can serve without passing the
largest `int`, the returned ids are the counter, the counter plus one, and
so on. -/
theorem createdIDs_eq_range (ops : List Op) : ∀ (mr : MatchRepository),
    minInt ≤ mr.nextID → mr.nextID + countCreates ops ≤ maxInt + 1 →
    createdIDs mr ops
      = (List.range (countCreates ops)).map (fun (i : Nat) => mr.nextID + (i : Int)) := by
  induction ops with
  | nil =>
    intro mr _ _
    simp [createdIDs, countCreates]
  | cons op ops ih =>
    intro mr h1 h2
    rw [countCreates_cons] at h2 ⊢
    cases hc : op.isCreate with
    | false =>
      simp only [hc, Bool.false_eq_true, if_false, add_zero] at h2 ⊢
      have hn := step_nextID_of_not_create mr op hc
      have := ih (step mr op) (by omega) (by omega)
      rw [hn] at this
      cases op <;> first | (simp [Op.isCreate] at hc; done) | simpa [createdIDs] using this
    | true =>
      cases op with
      | create m =>
        simp only [hc, if_true] at h2 ⊢
        simp only [createdIDs, List.range_succ_eq_map, List.map_cons, List.map_map]
        by_cases h0 : countCreates ops = 0
        · rw [createdIDs_of_no_create ops _ h0, h0]
          simp [CreateMatch]
        · have hlt : mr.nextID < maxInt := by push_cast at h2; omega
          have hn : (CreateMatch mr m).1.nextID = mr.nextID + 1 := by
            simp [CreateMatch, incr_eq_of_lt h1 hlt]
          rw [ih (CreateMatch mr m).1 (by omega) (by push_cast at h2; omega), hn]
          refine congrArg₂ _ (by simp [CreateMatch]) ?_
          apply List.map_congr_left
          intro i _
          simp only [Function.comp, Nat.cast_succ]
          omega
      | _ => simp [Op.isCreate] at hc

/-- C16 (as amended): for every sequence of calls with at most `2^63 - 1`
creates, applied to a fresh repository, the `k`-th create returns `k`,
whatever is interleaved; with fewer than `2^63 - 1` creates the counter ends
at one plus the number of creates; and no call other than `CreateMatch`
changes the counter. -/
theorem ids_sequential (ops : List Op) (hb : (countCreates ops : Int) ≤ maxInt) :
    createdIDs NewMatchRepository ops
      = (List.range (countCreates ops)).map (fun (i : Nat) => (i : Int) + 1) ∧
    ((countCreates ops : Int) < maxInt →
      (run NewMatchRepository ops).nextID = 1 + countCreates ops) ∧
    (∀ (mr : MatchRepository) (op : Op), op.isCreate = false →
      (step mr op).nextID = mr.nextID) := by
  refine ⟨?_, ?_, step_nextID_of_not_create⟩
  · rw [createdIDs_eq_range ops NewMatchRepository (by decide)
      (by simp only [NewMatchRepository]; omega)]
    apply List.map_congr_left
    intro i _
    simp only [NewMatchRepository]
    omega
  · intro hlt
    exact (run_invariant ops NewMatchRepository (by decide)
      (by simp only [NewMatchRepository]; omega) (KeysOK_empty _)).1

/-- Witness of `ids_sequential`: three creates interleaved with a delete, a
failed update and a goal return 1, 2 and 3. -/
theorem ids_sequential_witness :
    createdIDs NewMatchRepository
      [Op.create samplePayload, Op.delete 1, Op.create samplePayload,
       Op.update 9 samplePayload, Op.goal 2, Op.create samplePayload] = [1, 2, 3] := by
  rw [(ids_sequential _ (by decide)).1]
  decide

/-- C16 fails as stated: after `2^63 - 1` creates the counter is `-2^63`, not
one plus the number of creates. -/
theorem counter_not_one_plus_creates :
    countCreates (longTrace ++ [Op.create samplePayload]) = 9223372036854775807 ∧
    (run NewMatchRepository (longTrace ++ [Op.create samplePayload])).nextID
      = -9223372036854775808 ∧
    (run NewMatchRepository (longTrace ++ [Op.create samplePayload])).nextID
      ≠ 1 + (countCreates (longTrace ++ [Op.create samplePayload]) : Int) := by
  have hc : countCreates (longTrace ++ [Op.create samplePayload]) = 9223372036854775807 := by
    rw [countCreates_append, countCreates_longTrace]
    rfl
  have hn : (run NewMatchRepository (longTrace ++ [Op.create samplePayload])).nextID
      = -9223372036854775808 := by
    rw [run_append, run_singleton]
    exact (step_create_at_maxInt _ samplePayload run_longTrace_nextID).2
  refine ⟨hc, hn, ?_⟩
  rw [hn, hc]
  decide

/-! ## Create followed by delete -/

/-- What a create followed by a delete of the returned id does when the
counter stands at the largest `int`. -/
theorem create_delete_at_maxInt (s : MatchRepository) (p : Match) (h : s.nextID = maxInt) :
    (DeleteMatch (CreateMatch s p).1 (CreateMatch s p).2).2 = true ∧
    (DeleteMatch (CreateMatch s p).1 (CreateMatch s p).2).1.nextID
      = -9223372036854775808 := by
  obtain ⟨f, n⟩ := s
  simp only at h
  subst h
  simp only [CreateMatch, DeleteMatch, Finmap.lookup_insert]
  exact ⟨trivial, by decide⟩

/-- C17 (as amended): in every repository reached from `NewMatchRepository` by
a sequence of calls with fewer than `2^63 - 2` creates, a `CreateMatch`
followed by a `DeleteMatch` of the returned id returns `true` from the delete
and leaves the map exactly as before the create, with the counter one higher;
the next `CreateMatch` returns a different id. -/
theorem create_delete_roundtrip (ops : List Op) (p q : Match)
    (hb : (countCreates ops : Int) + 1 < maxInt) :
    (DeleteMatch (CreateMatch (run NewMatchRepository ops) p).1
      (CreateMatch (run NewMatchRepository ops) p).2).2 = true ∧
    (DeleteMatch (CreateMatch (run NewMatchRepository ops) p).1
      (CreateMatch (run NewMatchRepository ops) p).2).1.matches_
        = (run NewMatchRepository ops).matches_ ∧
    (DeleteMatch (CreateMatch (run NewMatchRepository ops) p).1
      (CreateMatch (run NewMatchRepository ops) p).2).1.nextID
        = (run NewMatchRepository ops).nextID + 1 ∧
    (CreateMatch (DeleteMatch (CreateMatch (run NewMatchRepository ops) p).1
      (CreateMatch (run NewMatchRepository ops) p).2).1 q).2
        ≠ (CreateMatch (run NewMatchRepository ops) p).2 := by
  obtain ⟨hn, hk⟩ := run_invariant ops NewMatchRepository (by decide)
    (by simp only [NewMatchRepository]; omega) (KeysOK_empty _)
  generalize run NewMatchRepository ops = mr at hn hk ⊢
  have hlo : minInt ≤ mr.nextID := by
    rw [hn]; simp only [NewMatchRepository, minInt]; omega
  have hhi : mr.nextID < maxInt := by
    rw [hn]; simp only [NewMatchRepository]; omega
  have hfree : mr.matches_.lookup mr.nextID = none := by
    cases hl : mr.matches_.lookup mr.nextID with
    | none => rfl
    | some m => exact absurd (hk _ m hl).2.2 (lt_irrefl _)
  simp only [CreateMatch, DeleteMatch, Finmap.lookup_insert, incr_eq_of_lt hlo hhi]
  refine ⟨trivial, ?_, trivial, ?_⟩
  · apply Finmap.ext_lookup
    intro k
    by_cases hkn : k = mr.nextID
    · rw [hkn, Finmap.lookup_erase, hfree]
    · rw [Finmap.lookup_erase_ne hkn, Finmap.lookup_insert_of_ne _ hkn]
  · omega

/-- Witness of `create_delete_roundtrip`: on a repository holding id 1, a
create and a delete of the returned id 2 leave the map as it was and the
counter at 3. -/
theorem create_delete_roundtrip_witness :
    (DeleteMatch (CreateMatch (run NewMatchRepository [Op.create samplePayload]) Match.zero).1
      (CreateMatch (run NewMatchRepository [Op.create samplePayload]) Match.zero).2).1.matches_
        = (run NewMatchRepository [Op.create samplePayload]).matches_ ∧
    (DeleteMatch (CreateMatch (run NewMatchRepository [Op.create samplePayload]) Match.zero).1
      (CreateMatch (run NewMatchRepository [Op.create samplePayload]) Match.zero).2).1.nextID
        = 3 := by
  have h := create_delete_roundtrip [Op.create samplePayload] Match.zero Match.zero
    (by decide)
  refine ⟨h.2.1, ?_⟩
  rw [h.2.2.1]
  decide

/-- C17 fails as stated: in the repository reached by `2^63 - 2` creates, a
create followed by a delete of the returned id leaves the counter at `-2^63`,
not one higher than the `2^63 - 1` it was. -/
theorem create_delete_counter_wraps :
    (run NewMatchRepository longTrace).nextID = 9223372036854775807 ∧
    (DeleteMatch (CreateMatch (run NewMatchRepository longTrace) samplePayload).1
      (CreateMatch (run NewMatchRepository longTrace) samplePayload).2).2 = true ∧
    (DeleteMatch (CreateMatch (run NewMatchRepository longTrace) samplePayload).1
      (CreateMatch (run NewMatchRepository longTrace) samplePayload).2).1.nextID
        = -9223372036854775808 :=
  ⟨run_longTrace_nextID,
   create_delete_at_maxInt _ samplePayload run_longTrace_nextID⟩

/-! ## Commutation of the statistic operations -/

theorem StatOp.call_eq (f : StatOp) (mr : MatchRepository) (a : Int) :
    f.call mr a = (match mr.matches_.lookup a with
      | none => (mr, false)
      | some m => (MatchRepository.mk (mr.matches_.insert a (f.upd m)) mr.nextID, true)) := by
  cases f <;> rfl

theorem StatOp.upd_comm (f g : StatOp) (m : Match) : f.upd (g.upd m) = g.upd (f.upd m) := by
  cases f <;> cases g <;> rfl

/-- C18: any two statistic operations commute, on equal or different ids: the
final state and the two returned values do not depend on the order. -/
theorem stat_ops_commute (mr : MatchRepository) (f g : StatOp) (a b : Int) :
    (g.call (f.call mr a).1 b).1 = (f.call (g.call mr b).1 a).1 ∧
    (f.call mr a).2 = (f.call (g.call mr b).1 a).2 ∧
    (g.call (f.call mr a).1 b).2 = (g.call mr b).2 := by
  by_cases hab : a = b
  · subst hab
    cases ha : mr.matches_.lookup a with
    | none => simp [StatOp.call_eq, ha]
    | some m =>
      simp only [StatOp.call_eq, ha, Finmap.lookup_insert, Finmap.insert_insert, and_self,
        and_true]
      rw [StatOp.upd_comm]
  · have hba : b ≠ a := fun h => hab h.symm
    cases ha : mr.matches_.lookup a with
    | none =>
      cases hb : mr.matches_.lookup b with
      | none => simp [StatOp.call_eq, ha, hb]
      | some mb =>
        simp [StatOp.call_eq, ha, hb, Finmap.lookup_insert_of_ne _ hab]
    | some ma =>
      cases hb : mr.matches_.lookup b with
      | none =>
        simp [StatOp.call_eq, ha, hb, Finmap.lookup_insert_of_ne _ hba]
      | some mb =>
        simp only [StatOp.call_eq, ha, hb, Finmap.lookup_insert_of_ne _ hba,
          Finmap.lookup_insert_of_ne _ hab, and_self, and_true]
        rw [Finmap.insert_insert_of_ne _ hab]

end MatchRepo
